import Mathlib

/-!
Verification of the fastfood-sankey-explorer data pipeline.

This file is a shallow embedding of `src/fast_api.py` (class `FASTAPI`):
the catalog loader (`load_fast`, `get_restaurants`) and the local-network
extractor (`extract_local_network`).  A CSV file is modelled as a
`List Record`; a pandas `DataFrame` column assignment becomes a `List.map`;
row selection becomes `List.filter`; `groupby(...).size()` becomes counting
occurrences of each distinct key; `sort_values(..., ascending=False)` becomes
a sort by descending count; `Series.isin` becomes `List.any` membership.
The mutable `FASTAPI` object (its `self.fast` table) is modelled by explicit
state passing: each method takes the current state and returns its result
together with the new state.
-/

/-- One row of `data/fastfood.csv` as used by the pipeline: columns
`restaurant`, `calories`, `total_fat` (the only columns the code touches). -/
structure Record where
  restaurant : String
  calories : Int
  total_fat : Int
deriving Repr, DecidableEq

/-- Embedding of Python `str.lower` / pandas `.str.lower()`: lowercase the
string character by character. -/
def strLower (s : String) : String :=
  ⟨s.data.map Char.toLower⟩

/-- Embedding of `fast['calories'] // 100 * 100` (fast_api.py line 56):
Python `//` is floor division, i.e. `Int.fdiv`. -/
def calorieBin (calories : Int) : Int :=
  calories.fdiv 100 * 100

/-- Embedding of `fast['total_fat'] // 5 * 5` (fast_api.py line 57). -/
def fatBin (total_fat : Int) : Int :=
  total_fat.fdiv 5 * 5

/-- The dataframe `fast` after the two derived columns `calories_100` and
`total_fat_10` have been added (fast_api.py lines 53-57). -/
structure BinnedRow where
  restaurant : String
  calories : Int
  total_fat : Int
  calories_100 : Int
  total_fat_10 : Int
deriving Repr, DecidableEq

/-- Adding the two bin columns to one record. -/
def addBins (rec : Record) : BinnedRow :=
  ⟨rec.restaurant, rec.calories, rec.total_fat,
    calorieBin rec.calories, fatBin rec.total_fat⟩

/-- One row of `fast_filter` after the column projection
`fast[['restaurant', 'calories_100', 'total_fat_10']]` and the lowercasing
`fast_filter['restaurant'] = ....str.lower()` (fast_api.py lines 60-61). -/
structure FilterRow where
  restaurant : String
  calories_100 : Int
  total_fat_10 : Int
deriving Repr, DecidableEq

/-- The projection plus lowercasing applied to one binned row.  Note that it
acts on a copy (`.copy()` on line 60): the original `fast` rows keep their
original capitalization. -/
def projectRow (b : BinnedRow) : FilterRow :=
  ⟨strLower b.restaurant, b.calories_100, b.total_fat_10⟩

/-- `fast_filter` after the fat filter
`fast_filter[fast_filter['total_fat_10'] <= max_fat_value]`
(fast_api.py line 67), starting from the projected, lowercased rows. -/
def fastFilterRows (max_fat : Int) (file : List Record) : List FilterRow :=
  ((file.map addBins).map projectRow).filter
    fun row => decide (row.total_fat_10 ≤ max_fat)

/-- One row of the aggregate produced by
`groupby(['restaurant', 'calories_100']).size().reset_index(name="num_foods")`
(fast_api.py line 70). -/
structure AggRow where
  restaurant : String
  calories_100 : Int
  num_foods : Nat
deriving Repr, DecidableEq

/-- The distinct `(restaurant, calories_100)` keys occurring in a row list. -/
def groupKeys (rows : List FilterRow) : List (String × Int) :=
  (rows.map fun row => (row.restaurant, row.calories_100)).dedup

/-- Number of rows carrying a given group key (`size()` of the group). -/
def keyCount (rows : List FilterRow) (k : String × Int) : Nat :=
  rows.countP fun row => row.restaurant == k.1 && row.calories_100 == k.2

/-- Embedding of the group-by/size aggregation (fast_api.py line 70): one
`AggRow` per distinct key, holding the number of rows in the group. -/
def groupCount (rows : List FilterRow) : List AggRow :=
  (groupKeys rows).map fun k => ⟨k.1, k.2, keyCount rows k⟩

/-- Insertion step of the descending sort by `num_foods`. -/
def insertByCountDesc (g : AggRow) : List AggRow → List AggRow
  | [] => [g]
  | h :: t => if h.num_foods ≤ g.num_foods then g :: h :: t else h :: insertByCountDesc g t

/-- Embedding of `sort_values('num_foods', ascending=False)` (fast_api.py
line 73): sort the aggregate rows by descending count (the order among ties
is unspecified by the spec; nothing downstream depends on the order). -/
def sortByCountDesc : List AggRow → List AggRow
  | [] => []
  | h :: t => insertByCountDesc h (sortByCountDesc t)

/-- The sorted aggregate rows over the fat-filtered projection
(fast_api.py lines 67-73). -/
def aggRows (max_fat : Int) (file : List Record) : List AggRow :=
  sortByCountDesc (groupCount (fastFilterRows max_fat file))

/-- Embedding of `fast_rest = fast_filter[fast_filter.restaurant == restaurant]`
(fast_api.py line 76): the aggregate rows whose (lowercased) restaurant equals
the query input, which is compared exactly as given. -/
def fastRest (restaurant : String) (max_fat : Int) (file : List Record) :
    List AggRow :=
  (aggRows max_fat file).filter fun g => g.restaurant == restaurant

/-- One row of the returned dataframe `local` (fast_api.py lines 79-82): the
original columns plus the two bin columns, with `calories_100` converted to a
string by `astype(str)`. -/
structure LocalRow where
  restaurant : String
  calories : Int
  total_fat : Int
  calories_100 : String
  total_fat_10 : Int
deriving Repr, DecidableEq

/-- Conversion of a selected row of `fast` into a returned row:
`local['calories_100'] = local['calories_100'].astype(str)` (line 80). -/
def toLocalRow (b : BinnedRow) : LocalRow :=
  ⟨b.restaurant, b.calories, b.total_fat, toString b.calories_100, b.total_fat_10⟩

/-- Embedding of `FASTAPI.extract_local_network` (fast_api.py lines 44-82).
`file` is the content of `data/fastfood.csv` re-read on the call (line 53).
The final selection `fast[fast.calories_100.isin(fast_rest.calories_100)]`
(line 79) runs over the full binned dataset `fast`, not over the fat-filtered
`fast_filter`. -/
def extract_local_network (restaurant : String) (max_fat : Int)
    (file : List Record) : List LocalRow :=
  ((file.map addBins).filter
      fun b => (fastRest restaurant max_fat file).any
        fun g => g.calories_100 == b.calories_100).map toLocalRow

/-- The `FASTAPI` object state: the table `self.fast` loaded by `load_fast`. -/
structure FASTAPI where
  fast : List Record
deriving Repr, DecidableEq

/-- Embedding of `FASTAPI.load_fast` (fast_api.py lines 20-27): store the file
contents as `self.fast`. -/
def load_fast (fileContents : List Record) : FASTAPI :=
  ⟨fileContents⟩

/-- Lowercasing the `restaurant` field of one stored record. -/
def lowerRecord (rec : Record) : Record :=
  ⟨strLower rec.restaurant, rec.calories, rec.total_fat⟩

/-- Embedding of `FASTAPI.get_restaurants` (fast_api.py lines 29-42).
`fastfood = self.fast` aliases the stored table, so the assignment
`fastfood['restaurant'] = fastfood['restaurant'].str.lower()` (line 38)
overwrites the stored table's restaurant column in place; the returned list
is the distinct values of the (now lowercased) column. -/
def get_restaurants (api : FASTAPI) : List String × FASTAPI :=
  let mutated : FASTAPI := ⟨api.fast.map lowerRecord⟩
  ((mutated.fast.map fun rec => rec.restaurant).dedup, mutated)

/-- Embedding of a call to `extract_local_network` as a method on the
`FASTAPI` state: the body re-reads `data/fastfood.csv` (line 53, modelled by
the `fileContents` argument) and never references `self.fast`, so the state
is returned unchanged and the result depends only on the arguments and the
file contents. -/
def FASTAPI.extractCall (api : FASTAPI) (restaurant : String) (max_fat : Int)
    (fileContents : List Record) : List LocalRow × FASTAPI :=
  (extract_local_network restaurant max_fat fileContents, api)

/-- Spec-level characterization of the relevant calorie bins of a restaurant:
`b` is relevant when some record of the file belongs to the restaurant (after
lowercasing the stored name), falls in bin `b`, and survives the fat filter. -/
def isRelevantBin (restaurant : String) (max_fat : Int) (file : List Record)
    (b : Int) : Bool :=
  file.any fun rec =>
    strLower rec.restaurant == restaurant && calorieBin rec.calories == b &&
      decide (fatBin rec.total_fat ≤ max_fat)

/-- Aggregate count reported for calorie bin `b` of the selected restaurant:
total of the `num_foods` entries of the matching aggregate rows (the group
keys are distinct, so at most one row matches). -/
def aggCount (restaurant : String) (b : Int) (max_fat : Int)
    (file : List Record) : Nat :=
  (((fastRest restaurant max_fat file).filter
      fun g => g.calories_100 == b).map fun g => g.num_foods).sum

lemma insertByCountDesc_perm (g : AggRow) (l : List AggRow) :
    (insertByCountDesc g l).Perm (g :: l) := by
  induction l with
  | nil => exact List.Perm.refl _
  | cons h t ih =>
    unfold insertByCountDesc
    by_cases hc : h.num_foods ≤ g.num_foods
    · simp only [if_pos hc]
      exact List.Perm.refl _
    · simp only [if_neg hc]
      exact (ih.cons h).trans (List.Perm.swap g h t)

lemma sortByCountDesc_perm (l : List AggRow) : (sortByCountDesc l).Perm l := by
  induction l with
  | nil => exact List.Perm.refl _
  | cons h t ih =>
    unfold sortByCountDesc
    exact (insertByCountDesc_perm h (sortByCountDesc t)).trans (ih.cons h)

lemma mem_fastFilterRows_iff {max_fat : Int} {file : List Record} {row : FilterRow} :
    row ∈ fastFilterRows max_fat file ↔
      ∃ rec ∈ file, row = projectRow (addBins rec) ∧ fatBin rec.total_fat ≤ max_fat := by
  unfold fastFilterRows
  simp only [List.mem_filter, List.mem_map, decide_eq_true_eq]
  constructor
  · rintro ⟨⟨b, ⟨rec, hrec, hb⟩, hrow⟩, hfat⟩
    subst hb; subst hrow
    exact ⟨rec, hrec, rfl, hfat⟩
  · rintro ⟨rec, hrec, hrow, hfat⟩
    subst hrow
    exact ⟨⟨addBins rec, ⟨rec, hrec, rfl⟩, rfl⟩, hfat⟩

lemma mem_groupKeys_iff {rows : List FilterRow} {k : String × Int} :
    k ∈ groupKeys rows ↔ ∃ row ∈ rows, row.restaurant = k.1 ∧ row.calories_100 = k.2 := by
  unfold groupKeys
  rw [List.mem_dedup, List.mem_map]
  constructor
  · rintro ⟨row, hrow, hk⟩
    exact ⟨row, hrow, by rw [← hk], by rw [← hk]⟩
  · rintro ⟨row, hrow, h1, h2⟩
    exact ⟨row, hrow, by cases k; simp_all⟩

lemma mem_aggRows_iff {max_fat : Int} {file : List Record} {g : AggRow} :
    g ∈ aggRows max_fat file ↔ g ∈ groupCount (fastFilterRows max_fat file) :=
  (sortByCountDesc_perm _).mem_iff

lemma aggRows_key_iff (r : String) (b : Int) (max_fat : Int) (file : List Record) :
    (∃ g ∈ aggRows max_fat file, g.restaurant = r ∧ g.calories_100 = b) ↔
      ∃ rec ∈ file, strLower rec.restaurant = r ∧ calorieBin rec.calories = b ∧
        fatBin rec.total_fat ≤ max_fat := by
  constructor
  · rintro ⟨g, hg, hr, hb⟩
    rw [mem_aggRows_iff] at hg
    unfold groupCount at hg
    rw [List.mem_map] at hg
    obtain ⟨k, hk, hgk⟩ := hg
    rw [mem_groupKeys_iff] at hk
    obtain ⟨row, hrow, h1, h2⟩ := hk
    rw [mem_fastFilterRows_iff] at hrow
    obtain ⟨rec, hrec, hrf, hfat⟩ := hrow
    refine ⟨rec, hrec, ?_, ?_, hfat⟩
    · have : strLower rec.restaurant = row.restaurant := by rw [hrf]; rfl
      rw [this, h1, ← hr, ← hgk]
    · have : calorieBin rec.calories = row.calories_100 := by rw [hrf]; rfl
      rw [this, h2, ← hb, ← hgk]
  · rintro ⟨rec, hrec, hr, hb, hfat⟩
    refine ⟨⟨r, b, keyCount (fastFilterRows max_fat file) (r, b)⟩, ?_, rfl, rfl⟩
    rw [mem_aggRows_iff]
    unfold groupCount
    rw [List.mem_map]
    refine ⟨(r, b), ?_, rfl⟩
    rw [mem_groupKeys_iff]
    exact ⟨projectRow (addBins rec),
      mem_fastFilterRows_iff.mpr ⟨rec, hrec, rfl, hfat⟩, hr, hb⟩

lemma fastRest_bin_iff (r : String) (b : Int) (f : Int) (file : List Record) :
    (∃ g ∈ fastRest r f file, g.calories_100 = b) ↔
      ∃ rec ∈ file, strLower rec.restaurant = r ∧ calorieBin rec.calories = b ∧
        fatBin rec.total_fat ≤ f := by
  rw [← aggRows_key_iff]
  unfold fastRest
  constructor
  · rintro ⟨g, hg, hb⟩
    rw [List.mem_filter] at hg
    exact ⟨g, hg.1, eq_of_beq hg.2, hb⟩
  · rintro ⟨g, hg, hr, hb⟩
    refine ⟨g, List.mem_filter.mpr ⟨hg, ?_⟩, hb⟩
    rw [hr]
    exact beq_self_eq_true r

lemma fastRest_any_eq (r : String) (f : Int) (file : List Record) (b : Int) :
    ((fastRest r f file).any fun g => g.calories_100 == b) = isRelevantBin r f file b := by
  rw [Bool.eq_iff_iff]
  unfold isRelevantBin
  simp only [List.any_eq_true, beq_iff_eq, Bool.and_eq_true, decide_eq_true_eq]
  constructor
  · rintro ⟨g, hg, hb⟩
    obtain ⟨rec, h1, h2, h3, h4⟩ := (fastRest_bin_iff r b f file).mp ⟨g, hg, hb⟩
    exact ⟨rec, h1, ⟨h2, h3⟩, h4⟩
  · rintro ⟨rec, h1, ⟨h2, h3⟩, h4⟩
    exact (fastRest_bin_iff r b f file).mpr ⟨rec, h1, h2, h3, h4⟩

lemma extract_eq_spec (r : String) (f : Int) (file : List Record) :
    extract_local_network r f file =
      ((file.map addBins).filter
        fun row => isRelevantBin r f file row.calories_100).map toLocalRow := by
  unfold extract_local_network
  congr 1
  apply List.filter_congr
  intro b _
  exact fastRest_any_eq r f file b.calories_100

lemma extract_eq_nil_of_no_relevant (r : String) (f : Int) (file : List Record)
    (h : ∀ rec ∈ file, ¬(strLower rec.restaurant = r ∧ fatBin rec.total_fat ≤ f)) :
    extract_local_network r f file = [] := by
  rw [extract_eq_spec]
  have hnil : (file.map addBins).filter
      (fun row => isRelevantBin r f file row.calories_100) = [] := by
    rw [List.filter_eq_nil_iff]
    intro a _
    unfold isRelevantBin
    simp only [List.any_eq_true, Bool.and_eq_true, beq_iff_eq, decide_eq_true_eq]
    rintro ⟨rec, hrec, ⟨h1, h2⟩, h3⟩
    exact h rec hrec ⟨h1, h3⟩
  rw [hnil]
  rfl

lemma filter_beq_eq_nil {α : Type} [BEq α] [LawfulBEq α] {l : List α} {a : α} (ha : a ∉ l) :
    l.filter (fun x => x == a) = [] := by
  rw [List.filter_eq_nil_iff]
  intro b hb
  simp only [beq_iff_eq]
  rintro rfl
  exact ha hb

lemma filter_beq_of_nodup {α : Type} [BEq α] [LawfulBEq α] {l : List α} {a : α}
    (hn : l.Nodup) (ha : a ∈ l) : l.filter (fun x => x == a) = [a] := by
  induction l with
  | nil => cases ha
  | cons hd tl ih =>
    rw [List.nodup_cons] at hn
    rcases List.mem_cons.mp ha with h | h
    · subst h
      rw [List.filter_cons_of_pos (by simp)]
      rw [filter_beq_eq_nil hn.1]
    · have hne : hd ≠ a := fun he => hn.1 (he ▸ h)
      rw [List.filter_cons_of_neg (by simp [hne])]
      exact ih hn.2 h

lemma fdiv_hundred (a : Int) : a.fdiv 100 = ⌊(a : ℚ) / 100⌋ := by
  rw [Int.fdiv_eq_ediv a (by norm_num)]
  rw [show ((100 : ℚ)) = ((100 : ℕ) : ℚ) by norm_num]
  rw [Rat.floor_intCast_div_natCast]
  norm_num

lemma fdiv_five (a : Int) : a.fdiv 5 = ⌊(a : ℚ) / 5⌋ := by
  rw [Int.fdiv_eq_ediv a (by norm_num)]
  rw [show ((5 : ℚ)) = ((5 : ℕ) : ℚ) by norm_num]
  rw [Rat.floor_intCast_div_natCast]
  norm_num

lemma aggCount_eq_countP (r : String) (b : Int) (f : Int) (file : List Record) :
    aggCount r b f file =
      (fastFilterRows f file).countP
        fun row => row.restaurant == r && row.calories_100 == b := by
  unfold aggCount fastRest aggRows
  rw [List.filter_filter]
  have hperm := (((sortByCountDesc_perm (groupCount (fastFilterRows f file))).filter
      (fun g => g.calories_100 == b && g.restaurant == r)).map
        (fun g : AggRow => g.num_foods)).sum_eq
  rw [hperm]
  unfold groupCount
  rw [List.filter_map, List.map_map]
  have hpt : ∀ k ∈ groupKeys (fastFilterRows f file),
      ((fun g : AggRow => g.calories_100 == b && g.restaurant == r) ∘
        fun k : String × Int =>
          (⟨k.1, k.2, keyCount (fastFilterRows f file) k⟩ : AggRow)) k = (k == (r, b)) := by
    rintro ⟨x, y⟩ _
    show (y == b && x == r) = ((x, y) == (r, b))
    rw [Bool.eq_iff_iff]
    simp only [Bool.and_eq_true, beq_iff_eq, Prod.mk.injEq]
    constructor
    · rintro ⟨h1, h2⟩; exact ⟨h2, h1⟩
    · rintro ⟨h1, h2⟩; exact ⟨h2, h1⟩
  rw [List.filter_congr hpt]
  by_cases hmem : (r, b) ∈ groupKeys (fastFilterRows f file)
  · have hnd : (groupKeys (fastFilterRows f file)).Nodup := List.nodup_dedup _
    rw [filter_beq_of_nodup hnd hmem]
    show keyCount (fastFilterRows f file) (r, b) + 0 = _
    rw [Nat.add_zero]
    rfl
  · rw [filter_beq_eq_nil hmem]
    show 0 = _
    symm
    rw [List.countP_eq_zero]
    intro row hrow
    simp only [Bool.and_eq_true, beq_iff_eq]
    rintro ⟨h1, h2⟩
    apply hmem
    rw [mem_groupKeys_iff]
    exact ⟨row, hrow, h1, h2⟩

/-- Claim C1 counterexample (corrected): matching is not case-insensitive in the
query input.  On the one-row table with restaurant "McDonalds", querying with
"McDonalds" returns nothing while querying with "mcdonalds" returns the row,
because only the stored column is lowercased (line 61) and the query input is
compared as given (line 76). -/
theorem C1_case_insensitive_counterexample :
    extract_local_network "McDonalds" 15 [⟨"McDonalds", 300, 10⟩] ≠
      extract_local_network "mcdonalds" 15 [⟨"McDonalds", 300, 10⟩] := by
  decide

/-- Claim C1 (amended): `extract` lowercases only the stored table's
restaurant column, not the query input; `extract(r, f)` and
`extract(lowercase(r), f)` return identical row sets when the query input `r`
is already lowercase. -/
theorem C1_case_insensitive_amended (r : String) (f : Int) (file : List Record)
    (h : strLower r = r) :
    extract_local_network r f file = extract_local_network (strLower r) f file := by
  rw [h]

/-- Witness for the amended C1 at the concrete query "mcdonalds". -/
theorem C1_case_insensitive_amended_witness :
    extract_local_network "mcdonalds" 15 [⟨"McDonalds", 300, 10⟩] =
      extract_local_network (strLower "mcdonalds") 15 [⟨"McDonalds", 300, 10⟩] :=
  C1_case_insensitive_amended "mcdonalds" 15 [⟨"McDonalds", 300, 10⟩] (by decide)

/-- Claim C2 (confirmed): the final row set of `extract` is exactly the rows of
the full, fat-unfiltered original dataset whose calorie bin is relevant for the
selected restaurant (some record of that restaurant with that bin survives the
fat filter); on the spec's example dataset with maxFat 15 and restaurant
"mcdonalds", all three rows are returned, including the other restaurant's row
and the row with fat bin 40 > 15. -/
theorem C2_final_selection :
    (∀ (r : String) (f : Int) (file : List Record),
        extract_local_network r f file =
          ((file.map addBins).filter
            fun row => isRelevantBin r f file row.calories_100).map toLocalRow) ∧
      extract_local_network "mcdonalds" 15
          [⟨"mcdonalds", 300, 10⟩, ⟨"mcdonalds", 300, 40⟩, ⟨"wendys", 300, 5⟩] =
        [⟨"mcdonalds", 300, 10, "300", 10⟩, ⟨"mcdonalds", 300, 40, "300", 40⟩,
          ⟨"wendys", 300, 5, "300", 5⟩] :=
  ⟨extract_eq_spec, by decide⟩

/-- Claim C3 counterexample (corrected): the loaded table is not immutable.
`get_restaurants` assigns the lowercased restaurant column back into the
stored table (line 38 acts on an alias of `self.fast`), so on a table holding
"McDonalds" the stored state after the call differs from the state before. -/
theorem C3_immutability_counterexample :
    (get_restaurants ⟨[⟨"McDonalds", 300, 10⟩]⟩).2 ≠ ⟨[⟨"McDonalds", 300, 10⟩]⟩ := by
  decide

/-- Claim C3 (amended): `get_restaurants` returns the distinct lowercased
restaurant names but mutates the stored table, overwriting each record's
restaurant name with its lowercased form (calories and fat are untouched). -/
theorem C3_get_restaurants_amended (api : FASTAPI) :
    (get_restaurants api).1 =
        ((api.fast.map lowerRecord).map fun rec => rec.restaurant).dedup ∧
      (get_restaurants api).2.fast = api.fast.map lowerRecord :=
  ⟨rfl, rfl⟩

/-- Claim C4 (confirmed): for every record, the derived bins satisfy exactly
`calorie_bin = floor(calories/100)*100` and `fat_bin = floor(total_fat/5)*5`,
with `floor` the mathematical floor of the exact quotient. -/
theorem C4_bin_formulas (rec : Record) :
    (addBins rec).calories_100 = ⌊(rec.calories : ℚ) / 100⌋ * 100 ∧
      (addBins rec).total_fat_10 = ⌊(rec.total_fat : ℚ) / 5⌋ * 5 := by
  constructor
  · show calorieBin rec.calories = _
    unfold calorieBin
    rw [fdiv_hundred]
  · show fatBin rec.total_fat = _
    unfold fatBin
    rw [fdiv_five]

/-- Claim C5 (confirmed): if the queried restaurant name matches no stored
record after lowercasing the stored column, the relevant-bin set is empty and
`extract` returns the empty row set (no error). -/
theorem C5_unknown_restaurant (r : String) (f : Int) (file : List Record)
    (h : ∀ rec ∈ file, strLower rec.restaurant ≠ r) :
    extract_local_network r f file = [] :=
  extract_eq_nil_of_no_relevant r f file fun rec hrec hc => h rec hrec hc.1

/-- Witness for C5: a restaurant absent from the dataset yields the empty set. -/
theorem C5_unknown_restaurant_witness :
    extract_local_network "tacobell" 20
      [⟨"wendys", 300, 5⟩, ⟨"McDonalds", 450, 21⟩] = [] :=
  C5_unknown_restaurant "tacobell" 20 [⟨"wendys", 300, 5⟩, ⟨"McDonalds", 450, 21⟩]
    (by decide)

/-- Claim C6 (confirmed): raising the fat threshold never shrinks the selected
restaurant's set of relevant calorie bins, and each bin's aggregate count is
non-decreasing in the threshold. -/
theorem C6_monotonicity (r : String) (f1 f2 : Int) (file : List Record)
    (h : f1 ≤ f2) :
    (∀ b : Int, (∃ g ∈ fastRest r f1 file, g.calories_100 = b) →
        ∃ g ∈ fastRest r f2 file, g.calories_100 = b) ∧
      ∀ b : Int, aggCount r b f1 file ≤ aggCount r b f2 file := by
  constructor
  · intro b hb
    rw [fastRest_bin_iff] at hb ⊢
    obtain ⟨rec, h1, h2, h3, h4⟩ := hb
    exact ⟨rec, h1, h2, h3, le_trans h4 h⟩
  · intro b
    rw [aggCount_eq_countP, aggCount_eq_countP]
    unfold fastFilterRows
    rw [List.countP_filter, List.countP_filter]
    apply List.countP_mono_left
    intro row hrow hp
    simp only [Bool.and_eq_true, decide_eq_true_eq] at hp ⊢
    exact ⟨hp.1, le_trans hp.2 h⟩

/-- Witness for C6 at thresholds 10 and 15 over a two-row table. -/
theorem C6_monotonicity_witness :
    (∀ b : Int,
        (∃ g ∈ fastRest "mcdonalds" 10 [⟨"mcdonalds", 300, 10⟩, ⟨"mcdonalds", 420, 12⟩],
          g.calories_100 = b) →
        ∃ g ∈ fastRest "mcdonalds" 15 [⟨"mcdonalds", 300, 10⟩, ⟨"mcdonalds", 420, 12⟩],
          g.calories_100 = b) ∧
      ∀ b : Int,
        aggCount "mcdonalds" b 10 [⟨"mcdonalds", 300, 10⟩, ⟨"mcdonalds", 420, 12⟩] ≤
          aggCount "mcdonalds" b 15 [⟨"mcdonalds", 300, 10⟩, ⟨"mcdonalds", 420, 12⟩] :=
  C6_monotonicity "mcdonalds" 10 15 [⟨"mcdonalds", 300, 10⟩, ⟨"mcdonalds", 420, 12⟩]
    (by decide)

/-- Claim C7 (confirmed): the fat filter runs before the group-by aggregation,
so a `(restaurant, calorie_bin)` group all of whose rows fail the filter
produces no aggregate row, and when every row of the selected restaurant fails
the filter the extraction returns the empty set. -/
theorem C7_filter_before_aggregation (r : String) (b f : Int) (file : List Record)
    (hb : ∀ rec ∈ file, strLower rec.restaurant = r → calorieBin rec.calories = b →
      ¬(fatBin rec.total_fat ≤ f)) :
    (¬∃ g ∈ aggRows f file, g.restaurant = r ∧ g.calories_100 = b) ∧
      ((∀ rec ∈ file, strLower rec.restaurant = r → ¬(fatBin rec.total_fat ≤ f)) →
        extract_local_network r f file = []) := by
  constructor
  · intro hex
    obtain ⟨rec, h1, h2, h3, h4⟩ := (aggRows_key_iff r b f file).mp hex
    exact hb rec h1 h2 h3 h4
  · intro hr
    exact extract_eq_nil_of_no_relevant r f file fun rec hrec hc => hr rec hrec hc.1 hc.2

/-- Witness for C7: one "mcdonalds" row with fat bin 40 > 15 leaves no
aggregate row for bin 300 and an empty extraction result. -/
theorem C7_filter_before_aggregation_witness :
    (¬∃ g ∈ aggRows 15 [⟨"mcdonalds", 300, 40⟩],
        g.restaurant = "mcdonalds" ∧ g.calories_100 = 300) ∧
      ((∀ rec ∈ [(⟨"mcdonalds", 300, 40⟩ : Record)],
          strLower rec.restaurant = "mcdonalds" → ¬(fatBin rec.total_fat ≤ 15)) →
        extract_local_network "mcdonalds" 15 [⟨"mcdonalds", 300, 40⟩] = []) :=
  C7_filter_before_aggregation "mcdonalds" 300 15 [⟨"mcdonalds", 300, 40⟩] (by decide)

/-- Claim C8 (confirmed): calling `extract_local_network` twice with identical
arguments over an unchanged source file yields identical output: the second
call, made from whatever state the first call left behind, returns the same
row list. -/
theorem C8_idempotent (api : FASTAPI) (r : String) (f : Int) (file : List Record) :
    (api.extractCall r f file).1 =
      ((api.extractCall r f file).2.extractCall r f file).1 :=
  rfl

/-- Claim C9 (confirmed): `extract_local_network` works only from the re-read
file contents; its result is independent of the cached table held in the
`FASTAPI` state, and the call leaves that state unchanged. -/
theorem C9_no_shared_state (api1 api2 : FASTAPI) (r : String) (f : Int)
    (file : List Record) :
    (api1.extractCall r f file).1 = (api2.extractCall r f file).1 ∧
      (api1.extractCall r f file).2 = api1 :=
  ⟨rfl, rfl⟩

/-- Claim C10 (confirmed): every returned row comes from a source record whose
restaurant name it keeps in the original capitalization (lowercasing touched
only the internal projection), whose calorie and fat values it keeps, and
whose calorie bin it renders as a string. -/
theorem C10_row_rendering (r : String) (f : Int) (file : List Record)
    (out : LocalRow) (h : out ∈ extract_local_network r f file) :
    ∃ rec ∈ file, out.restaurant = rec.restaurant ∧ out.calories = rec.calories ∧
      out.total_fat = rec.total_fat ∧
      out.calories_100 = toString (calorieBin rec.calories) ∧
      out.total_fat_10 = fatBin rec.total_fat := by
  unfold extract_local_network at h
  rw [List.mem_map] at h
  obtain ⟨bRow, hb, hout⟩ := h
  rw [List.mem_filter] at hb
  obtain ⟨hbm, _⟩ := hb
  rw [List.mem_map] at hbm
  obtain ⟨rec, hrec, hbr⟩ := hbm
  subst hbr
  subst hout
  exact ⟨rec, hrec, rfl, rfl, rfl, rfl, rfl⟩

/-- Witness for C10: the row returned for the record ("McDonalds", 251, 12)
keeps the capitalized name and carries the bin string "200". -/
theorem C10_row_rendering_witness :
    ∃ rec ∈ [(⟨"McDonalds", 251, 12⟩ : Record)],
      (⟨"McDonalds", 251, 12, "200", 10⟩ : LocalRow).restaurant = rec.restaurant ∧
      (⟨"McDonalds", 251, 12, "200", 10⟩ : LocalRow).calories = rec.calories ∧
      (⟨"McDonalds", 251, 12, "200", 10⟩ : LocalRow).total_fat = rec.total_fat ∧
      (⟨"McDonalds", 251, 12, "200", 10⟩ : LocalRow).calories_100 =
        toString (calorieBin rec.calories) ∧
      (⟨"McDonalds", 251, 12, "200", 10⟩ : LocalRow).total_fat_10 =
        fatBin rec.total_fat :=
  C10_row_rendering "mcdonalds" 15 [⟨"McDonalds", 251, 12⟩]
    ⟨"McDonalds", 251, 12, "200", 10⟩ (by decide)
